import Mathlib

/-!
Shallow embedding of the prompt_tester experiment execution engine.

The definitions below are translated from the repository sources:
  * `src/promptester/llm_client.py` (completion client, error classification),
  * `src/src/test_runner.py` (execution engine),
  * `src/src/storage.py` (SQLite-backed result store).

Machine-level details are modelled as follows: Python strings become `String`,
timestamps become `Nat` ticks, SQLite rows become a structure, the
`experiments` table becomes a `List` of rows in rowid order, and exceptions
become `Except` values.
-/

set_option linter.unusedVariables false

/-- ASCII lowercasing of a string; models Python `str.lower()` on the ASCII
error messages manipulated by `_classify_error`. -/
def str_lower (s : String) : String := ⟨s.data.map Char.toLower⟩

/-- Lexicographic comparison of character lists, with a proper leading
segment comparing smaller; this is Python's string comparison. -/
def le_chars : List Char → List Char → Bool
  | [], _ => true
  | _ :: _, [] => false
  | a :: as, b :: bs => if a < b then true else if b < a then false else le_chars as bs

/-- Python-style string comparison `a <= b`, used by `sorted()` on the
discovered file names. -/
def str_le (a b : String) : Bool := le_chars a.data b.data

/-- Insertion of an element into a list sorted by the Boolean comparator
`le`; helper for `sortLe`. -/
def insertLe (le : α → α → Bool) (a : α) : List α → List α
  | [] => [a]
  | b :: bs => if le a b then a :: b :: bs else b :: insertLe le a bs

/-- Stable insertion sort by a Boolean comparator; models Python's
`sorted()`. -/
def sortLe (le : α → α → Bool) : List α → List α
  | [] => []
  | a :: as => insertLe le a (sortLe le as)

/-- Boolean test that `pat` is a leading segment of the second list. -/
def matchesAt : List Char → List Char → Bool
  | [], _ => true
  | _ :: _, [] => false
  | p :: ps, c :: cs => p == c && matchesAt ps cs

/-- Boolean substring occurrence over character lists. -/
def occursInChars (pat : List Char) : List Char → Bool
  | [] => matchesAt pat []
  | c :: cs => matchesAt pat (c :: cs) || occursInChars pat cs

/-- Python-style substring containment: `occursIn s pat` models `pat in s`. -/
def occursIn (s pat : String) : Bool := occursInChars pat.toList s.toList

/-- The concrete `LLMError` subclasses raised by `LLMClient._classify_error`
in `src/promptester/llm_client.py`. -/
inductive LLMErrorKind
  | RateLimitError
  | AuthenticationError
  | TimeoutError
  | NetworkError
  | InvalidModelError
  | APIError
deriving DecidableEq

/-- The Python class name of a classified LLM error, i.e. what
`type(error).__name__` evaluates to in `_classify_llm_error`. -/
def kindName : LLMErrorKind → String
  | .RateLimitError => "RateLimitError"
  | .AuthenticationError => "AuthenticationError"
  | .TimeoutError => "TimeoutError"
  | .NetworkError => "NetworkError"
  | .InvalidModelError => "InvalidModelError"
  | .APIError => "APIError"

/-- A Python exception as seen by the engine: either one of the client's
`LLMError` subclasses, or any other exception identified by its class name
and message (e.g. the `ValueError` raised on an unknown model). -/
inductive PyExc
  | llm (kind : LLMErrorKind) (message : String)
  | other (typeName message : String)
deriving DecidableEq

/-- The value of `type(error).__name__` for an exception. -/
def PyExc.errorTypeName : PyExc → String
  | .llm k _ => kindName k
  | .other t _ => t

/-- The value of `str(error)` for an exception. -/
def PyExc.errorMessage : PyExc → String
  | .llm _ m => m
  | .other _ m => m

/-- The general (non-Gemini-specific) classification chain of
`LLMClient._classify_error` (`src/promptester/llm_client.py`, lines 258-270).
`error_str` is the already-lowercased message, `error` the original one. -/
def classify_general (error_str model_name error : String) : PyExc :=
  if occursIn error_str "rate limit" || occursIn error_str "429" then
    .llm .RateLimitError ("Rate limit exceeded for model " ++ model_name ++ ": " ++ error)
  else if occursIn error_str "api key" || occursIn error_str "authentication" ||
      occursIn error_str "401" then
    .llm .AuthenticationError ("Authentication failed for model " ++ model_name ++ ": " ++ error)
  else if occursIn error_str "timeout" then
    .llm .TimeoutError ("Request timeout for model " ++ model_name ++ ": " ++ error)
  else if occursIn error_str "network" || occursIn error_str "connection" then
    .llm .NetworkError ("Network error for model " ++ model_name ++ ": " ++ error)
  else if occursIn error_str "model" &&
      (occursIn error_str "not found" || occursIn error_str "invalid") then
    .llm .InvalidModelError ("Invalid model " ++ model_name ++ ": " ++ error)
  else
    .llm .APIError ("API error for model " ++ model_name ++ ": " ++ error)

/-- `LLMClient._classify_error` (`src/promptester/llm_client.py`, lines 236-270):
the Gemini-specific checks run first for models whose name contains
"gemini"; when neither matches, control falls through to the general chain. -/
def _classify_error (error model_name : String) : PyExc :=
  let error_str := str_lower error
  if occursIn (str_lower model_name) "gemini" then
    if occursIn error_str "gemini_api_key" || occursIn error_str "google_api_key" then
      .llm .AuthenticationError
        ("Gemini API key not set. Please ensure GEMINI_API_KEY and GOOGLE_API_KEY " ++
         "environment variables are set for model " ++ model_name ++ ": " ++ error)
    else if occursIn error_str "quota exceeded" || occursIn error_str "billing" then
      .llm .RateLimitError
        ("Gemini API quota exceeded or billing issue for model " ++ model_name ++
         ". Check your Google Cloud billing and API quotas: " ++ error)
    else classify_general error_str model_name error
  else classify_general error_str model_name error

/-- `TestRunner._classify_llm_error` (`src/src/test_runner.py`, lines 131-144):
a dictionary lookup on the error's class name with default `unknown_error`. -/
def _classify_llm_error (error_type : String) : String :=
  if error_type = "RateLimitError" then "rate_limit"
  else if error_type = "AuthenticationError" then "api_error"
  else if error_type = "TimeoutError" then "timeout"
  else if error_type = "NetworkError" then "network_error"
  else if error_type = "InvalidModelError" then "invalid_model"
  else if error_type = "APIError" then "api_error"
  else "unknown_error"

/-- The status the engine assigns to a caught exception
(`TestRunner._handle_experiment_error`, `src/src/test_runner.py`,
lines 146-159): `LLMError` instances go through `_classify_llm_error`,
anything else becomes `unknown_error`. -/
def status_of_exception : PyExc → String
  | .llm k _ => _classify_llm_error (kindName k)
  | .other _ _ => "unknown_error"

/-- The stored status produced for a provider error message by the full
classification pipeline: `LLMClient._classify_error` on the provider message
followed by the engine's status mapping. -/
def pipeline_status (error model_name : String) : String :=
  status_of_exception (_classify_error error model_name)

example : pipeline_status "rate limit reached" "gpt-4" = "rate_limit" := by decide
example : pipeline_status "HTTP 429" "gpt-4" = "rate_limit" := by decide
example : pipeline_status "request timeout" "gpt-4" = "timeout" := by decide
example : pipeline_status "something inexplicable happened" "gpt-4" = "api_error" := by decide
example : pipeline_status "429 error: gemini_api_key invalid" "gemini-pro" = "api_error" := by
  decide
example : str_le "mb" "ma" = false := by decide
example : sortLe str_le ["b.md", "a.md"] = ["a.md", "b.md"] := by decide

theorem insertLe_perm (le : α → α → Bool) (a : α) (l : List α) :
    List.Perm (insertLe le a l) (a :: l) := by
  induction l with
  | nil => exact List.Perm.refl _
  | cons b bs ih =>
    simp only [insertLe]
    cases h : le a b with
    | true => simp
    | false =>
      simp only [Bool.false_eq_true, if_false]
      exact (ih.cons b).trans (List.Perm.swap a b bs)

theorem sortLe_perm (le : α → α → Bool) (l : List α) : List.Perm (sortLe le l) l := by
  induction l with
  | nil => exact List.Perm.refl _
  | cons a as ih => exact (insertLe_perm le a (sortLe le as)).trans (ih.cons a)

theorem sortLe_length (le : α → α → Bool) (l : List α) :
    (sortLe le l).length = l.length :=
  (sortLe_perm le l).length_eq

theorem sortLe_mem (le : α → α → Bool) (a : α) (l : List α) :
    a ∈ sortLe le l ↔ a ∈ l :=
  (sortLe_perm le l).mem_iff

theorem sortLe_nodup (le : α → α → Bool) (l : List α) (h : l.Nodup) :
    (sortLe le l).Nodup :=
  (sortLe_perm le l).nodup_iff.mpr h

theorem insertLe_sorted (le : α → α → Bool)
    (total : ∀ a b, le a b = true ∨ le b a = true)
    (htrans : ∀ a b c, le a b = true → le b c = true → le a c = true)
    (a : α) (l : List α) (h : List.Pairwise (fun x y => le x y = true) l) :
    List.Pairwise (fun x y => le x y = true) (insertLe le a l) := by
  induction l with
  | nil => simp [insertLe]
  | cons b bs ih =>
    rw [List.pairwise_cons] at h
    simp only [insertLe]
    cases hab : le a b with
    | true =>
      simp only [if_true]
      refine List.Pairwise.cons ?_ (List.Pairwise.cons h.1 h.2)
      intro x hx
      rcases List.mem_cons.mp hx with rfl | hx
      · exact hab
      · exact htrans a b x hab (h.1 x hx)
    | false =>
      simp only [Bool.false_eq_true, if_false]
      refine List.Pairwise.cons ?_ (ih h.2)
      intro x hx
      rcases List.mem_cons.mp ((insertLe_perm le a bs).mem_iff.mp hx) with rfl | hx
      · rcases total x b with hxb | hbx
        · exact absurd hxb (by simp [hab])
        · exact hbx
      · exact h.1 x hx

theorem sortLe_sorted (le : α → α → Bool)
    (total : ∀ a b, le a b = true ∨ le b a = true)
    (htrans : ∀ a b c, le a b = true → le b c = true → le a c = true)
    (l : List α) :
    List.Pairwise (fun x y => le x y = true) (sortLe le l) := by
  induction l with
  | nil => exact List.Pairwise.nil
  | cons a as ih => exact insertLe_sorted le total htrans a (sortLe le as) ih

theorem le_chars_total (as bs : List Char) :
    le_chars as bs = true ∨ le_chars bs as = true := by
  induction as generalizing bs with
  | nil => left; rfl
  | cons a as ih =>
    cases bs with
    | nil => right; rfl
    | cons b bs =>
      rcases lt_trichotomy a b with h | h | h
      · left; simp [le_chars, h]
      · subst h
        rcases ih bs with h' | h'
        · left; simp [le_chars, h']
        · right; simp [le_chars, h']
      · right; simp [le_chars, h]

theorem le_chars_trans (as bs cs : List Char)
    (h1 : le_chars as bs = true) (h2 : le_chars bs cs = true) :
    le_chars as cs = true := by
  induction as generalizing bs cs with
  | nil => rfl
  | cons a as ih =>
    cases bs with
    | nil => simp [le_chars] at h1
    | cons b bs =>
      cases cs with
      | nil => simp [le_chars] at h2
      | cons c cs =>
        simp only [le_chars] at h1 h2 ⊢
        rcases lt_trichotomy a b with hab | hab | hab
        · rcases lt_trichotomy b c with hbc | hbc | hbc
          · simp [lt_trans hab hbc]
          · subst hbc; simp [hab]
          · simp [hbc, lt_asymm hbc] at h2
        · subst hab
          rcases lt_trichotomy a c with hac | hac | hac
          · simp [hac]
          · subst hac
            simp [lt_irrefl] at h1 h2 ⊢
            exact ih bs cs h1 h2
          · simp [hac, lt_asymm hac] at h2
        · simp [hab, lt_asymm hab] at h1

theorem str_le_total (a b : String) : str_le a b = true ∨ str_le b a = true :=
  le_chars_total a.data b.data

theorem str_le_trans (a b c : String) (h1 : str_le a b = true)
    (h2 : str_le b c = true) : str_le a c = true :=
  le_chars_trans a.data b.data c.data h1 h2

/-- `ModelConfig` dataclass (`src/promptester/llm_client.py`, lines 36-40). -/
structure ModelConfig where
  name : String
  api_key : String
deriving DecidableEq

/-- `LLMResponse` dataclass (`src/promptester/llm_client.py`, lines 43-49);
`usage` is kept opaque. -/
structure LLMResponse where
  content : String
  model : String
  usage : Option String := none
  finish_reason : Option String := none
deriving DecidableEq

/-- The configuration-derived state of `LLMClient.__init__`
(`src/promptester/llm_client.py`, lines 61-72). -/
structure LLMClient where
  models : List ModelConfig
  request_delay : Nat := 1
  max_concurrent_requests : Nat := 5
deriving DecidableEq

/-- `LLMClient.get_available_models` (lines 103-105). -/
def get_available_models (c : LLMClient) : List String :=
  c.models.map (fun m => m.name)

/-- Outcome of the single outbound provider call (`litellm.completion` /
`litellm.acompletion`), supplied as an oracle parameter. -/
inductive NetResult
  | ok (content model : String) (usage finish_reason : Option String)
  | exc (message : String)
deriving DecidableEq

/-- The `ValueError` message raised by `complete`/`complete_async` for a
model name absent from the configuration. -/
def not_found_message (c : LLMClient) (model_name : String) : String :=
  "Model '" ++ model_name ++ "' not found in configuration. Available models: " ++
    String.intercalate ", " (get_available_models c)

/-- `LLMClient.complete` (`src/promptester/llm_client.py`, lines 174-234):
the membership guard runs before anything else; the second component counts
how many outbound provider calls were performed. A provider exception is
re-raised through `_classify_error`. -/
def LLMClient.complete (c : LLMClient) (system_message user_message model_name : String)
    (net : NetResult) : Except PyExc LLMResponse × Nat :=
  if model_name ∉ get_available_models c then
    (Except.error (PyExc.other "ValueError" (not_found_message c model_name)), 0)
  else
    match net with
    | .ok content model usage finish_reason =>
        (Except.ok ⟨content, model, usage, finish_reason⟩, 1)
    | .exc message => (Except.error (_classify_error message model_name), 1)

/-- `LLMClient.complete_async` (lines 107-172): identical guard and
classification; the `async with self._rate_limiter` discipline it adds is
modelled by `PoolStep` below. -/
def LLMClient.complete_async (c : LLMClient) (system_message user_message model_name : String)
    (net : NetResult) : Except PyExc LLMResponse × Nat :=
  if model_name ∉ get_available_models c then
    (Except.error (PyExc.other "ValueError" (not_found_message c model_name)), 0)
  else
    match net with
    | .ok content model usage finish_reason =>
        (Except.ok ⟨content, model, usage, finish_reason⟩, 1)
    | .exc message => (Except.error (_classify_error message model_name), 1)

/-- The `error_details` dictionary built by `_handle_experiment_error`
(`src/src/test_runner.py`, lines 153-157). -/
structure ErrorDetails where
  error_type : String
  message : String
  timestamp : Nat
deriving DecidableEq

/-- `ExperimentResult` dataclass (`src/src/test_runner.py`, lines 31-43). -/
structure ExperimentResult where
  prompt_file : String
  test_case_file : String
  model_name : String
  system_message : String
  user_message : String
  response_content : Option String := none
  response_model_name : Option String := none
  status : String := "success"
  error_details : Option ErrorDetails := none
  duration_seconds : Nat := 0
deriving DecidableEq

/-- `TestRunner._create_experiment_result` (lines 114-129). -/
def _create_experiment_result (prompt_file test_case_file model_name system_message
    user_message : String) : ExperimentResult :=
  { prompt_file := prompt_file, test_case_file := test_case_file, model_name := model_name,
    system_message := system_message, user_message := user_message }

/-- `TestRunner._handle_experiment_error` (lines 146-159). -/
def _handle_experiment_error (result : ExperimentResult) (error : PyExc)
    (now : Nat) : ExperimentResult :=
  { result with
    status := status_of_exception error,
    error_details := some ⟨error.errorTypeName, error.errorMessage, now⟩ }

/-- Shared core of `_run_experiment_core_sync` and `_run_experiment_core_async`
(`src/src/test_runner.py`, lines 208-284): the contents are already loaded,
the LLM call outcome arrives as an `Except` parameter, and the `finally`
block's duration assignment happens on both paths. -/
def _run_experiment_core (prompt_file test_case_file model_name system_message
    user_message : String) (llm_outcome : Except PyExc (String × String))
    (now elapsed : Nat) : ExperimentResult :=
  let result := _create_experiment_result prompt_file test_case_file model_name
    system_message user_message
  match llm_outcome with
  | .ok (content, response_model) =>
      { result with
        response_content := some content,
        response_model_name := some response_model,
        status := "success",
        duration_seconds := elapsed }
  | .error e =>
      { _handle_experiment_error result e now with duration_seconds := elapsed }

/-- `TestRunner.discover_prompts` (lines 80-82): the glob result sorted by
file name. -/
def discover_prompts (promptFiles : List String) : List String :=
  sortLe str_le promptFiles

/-- `TestRunner.discover_test_cases` (lines 84-86). -/
def discover_test_cases (testCaseFiles : List String) : List String :=
  sortLe str_le testCaseFiles

/-- `TestRunner.generate_experiment_combinations` (lines 98-112).
`configModels` models `self.config.models` (possibly `None`),
`availableModels` models `self.llm_client.get_available_models()`; Python's
`or` falls back when the configured list is `None` or empty. The three
nested loops become nested `flatMap`/`map`. -/
def generate_experiment_combinations (promptFiles testCaseFiles : List String)
    (configModels : Option (List String)) (availableModels : List String) :
    List (String × String × String) :=
  let prompts := discover_prompts promptFiles
  let test_cases := discover_test_cases testCaseFiles
  let models := match configModels with
    | some l => if l.isEmpty then availableModels else l
    | none => availableModels
  prompts.flatMap fun prompt_file =>
    test_cases.flatMap fun test_case_file =>
      models.map fun model_name => (prompt_file, test_case_file, model_name)

example :
    generate_experiment_combinations ["b.md", "a.md"] ["x.md"] none ["m2", "m1"] =
      [("a.md", "x.md", "m2"), ("a.md", "x.md", "m1"),
       ("b.md", "x.md", "m2"), ("b.md", "x.md", "m1")] := by decide

/-- The closed status enumeration of the `CHECK` constraint in
`ExperimentStorage._create_tables` (`src/src/storage.py`, lines 49-52). -/
def validStatuses : List String :=
  ["success", "api_error", "timeout", "rate_limit",
   "invalid_model", "network_error", "unknown_error"]

/-- The per-run metadata dictionary cached by `start_run`
(`src/src/storage.py`, lines 112-119). -/
structure RunMetadata where
  run_started_timestamp : Nat
  run_completed_timestamp : Option Nat
  run_total_experiments : Option Nat
  run_successful_experiments : Option Nat
  run_config_snapshot : Option String
deriving DecidableEq

/-- One row of the `experiments` table (`src/src/storage.py`, lines 37-61).
Columns declared `NOT NULL` are non-optional fields. -/
structure ExperimentRow where
  id : Nat
  run_id : String
  timestamp : Nat
  prompt_file : String
  test_case_file : String
  model_name : String
  response_model_name : Option String
  system_message : String
  user_message : String
  response_content : Option String
  status : String
  error_details : Option ErrorDetails
  run_started_timestamp : Nat
  run_completed_timestamp : Option Nat
  run_total_experiments : Option Nat
  run_successful_experiments : Option Nat
  run_config_snapshot : Option String
deriving DecidableEq

/-- The composite uniqueness key of the table:
`UNIQUE(run_id, prompt_file, test_case_file, model_name)`. -/
def rowKey (row : ExperimentRow) : String × String × String × String :=
  (row.run_id, row.prompt_file, row.test_case_file, row.model_name)

/-- In-memory state of an `ExperimentStorage` instance: the persisted table
in rowid order, the `_current_run_metadata` cache, and the next
`AUTOINCREMENT` rowid. -/
structure StorageState where
  db : List ExperimentRow
  cache : List (String × RunMetadata)
  next_id : Nat
deriving DecidableEq

/-- A freshly initialised storage over an empty database file. -/
def emptyStorage : StorageState := ⟨[], [], 1⟩

/-- Dictionary lookup in the `_current_run_metadata` cache. -/
def lookupCache (cache : List (String × RunMetadata)) (run_id : String) :
    Option RunMetadata :=
  (cache.find? (fun e => decide (e.1 = run_id))).map (fun e => e.2)

/-- `ExperimentStorage._get_run_metadata` (`src/src/storage.py`,
lines 137-168): cache first, then any existing row of the run, then
defaults. -/
def _get_run_metadata (st : StorageState) (run_id : String) (now : Nat) : RunMetadata :=
  match lookupCache st.cache run_id with
  | some md => md
  | none =>
    match st.db.find? (fun row => decide (row.run_id = run_id)) with
    | some row =>
        { run_started_timestamp := row.run_started_timestamp,
          run_completed_timestamp := row.run_completed_timestamp,
          run_total_experiments := row.run_total_experiments,
          run_successful_experiments := row.run_successful_experiments,
          run_config_snapshot := row.run_config_snapshot }
    | none =>
        { run_started_timestamp := now,
          run_completed_timestamp := none,
          run_total_experiments := none,
          run_successful_experiments := none,
          run_config_snapshot := none }

/-- `ExperimentStorage.start_run` (`src/src/storage.py`, lines 102-119):
only the in-memory cache is written; the database is untouched. -/
def start_run (st : StorageState) (run_id : String) (total_experiments : Nat)
    (config_snapshot : Option String) (now : Nat) : StorageState :=
  { st with
    cache := (run_id,
      { run_started_timestamp := now,
        run_completed_timestamp := none,
        run_total_experiments := some total_experiments,
        run_successful_experiments := none,
        run_config_snapshot := config_snapshot }) ::
      st.cache.filter (fun e => decide (e.1 ≠ run_id)) }

/-- `ExperimentStorage.complete_run` (`src/src/storage.py`, lines 121-135):
an `UPDATE ... WHERE run_id = ?` over the table plus a cache refresh. -/
def complete_run (st : StorageState) (run_id : String)
    (successful_experiments : Nat) (now : Nat) : StorageState :=
  { st with
    db := st.db.map (fun row =>
      if row.run_id = run_id then
        { row with
          run_completed_timestamp := some now,
          run_successful_experiments := some successful_experiments }
      else row),
    cache := st.cache.map (fun e =>
      if e.1 = run_id then
        (e.1, { e.2 with
          run_completed_timestamp := some now,
          run_successful_experiments := some successful_experiments })
      else e) }

/-- The row built by `ExperimentStorage.store_result` (`src/src/storage.py`,
lines 170-213) before insertion, with run metadata resolved through
`_get_run_metadata`. -/
def mkExperimentRow (st : StorageState) (run_id prompt_file test_case_file
    model_name system_message user_message : String)
    (response_content response_model_name : Option String) (status : String)
    (error_details : Option ErrorDetails) (now : Nat) : ExperimentRow :=
  let md := _get_run_metadata st run_id now
  { id := st.next_id,
    run_id := run_id,
    timestamp := now,
    prompt_file := prompt_file,
    test_case_file := test_case_file,
    model_name := model_name,
    response_model_name := response_model_name,
    system_message := system_message,
    user_message := user_message,
    response_content := response_content,
    status := status,
    error_details := error_details,
    run_started_timestamp := md.run_started_timestamp,
    run_completed_timestamp := md.run_completed_timestamp,
    run_total_experiments := md.run_total_experiments,
    run_successful_experiments := md.run_successful_experiments,
    run_config_snapshot := md.run_config_snapshot }

/-- The `INSERT OR REPLACE` step: SQLite deletes any row that conflicts on
the uniqueness key and appends the new row under a fresh rowid. -/
def store_insert (st : StorageState) (row : ExperimentRow) : StorageState :=
  { st with
    db := st.db.filter (fun r => decide (rowKey r ≠ rowKey row)) ++ [row],
    next_id := st.next_id + 1 }

/-- The error message of a violated status `CHECK` constraint. -/
def malformedStatusMsg : String := "CHECK constraint failed: status"

/-- `ExperimentStorage.store_result` (`src/src/storage.py`, lines 170-213):
a single transaction that either atomically insert-or-replaces one row and
returns its rowid, or fails the `CHECK(status IN ...)` constraint and is
rolled back. -/
def store_result (st : StorageState) (run_id prompt_file test_case_file
    model_name system_message user_message : String)
    (response_content response_model_name : Option String) (status : String)
    (error_details : Option ErrorDetails) (now : Nat) :
    Except String (Nat × StorageState) :=
  if status ∈ validStatuses then
    Except.ok (st.next_id,
      store_insert st (mkExperimentRow st run_id prompt_file test_case_file
        model_name system_message user_message response_content
        response_model_name status error_details now))
  else
    Except.error malformedStatusMsg

/-- The table contents after a `store_result` call: on success the new
table, on a rolled-back transaction the unchanged one. -/
def store_result_db (st : StorageState) (run_id prompt_file test_case_file
    model_name system_message user_message : String)
    (response_content response_model_name : Option String) (status : String)
    (error_details : Option ErrorDetails) (now : Nat) : List ExperimentRow :=
  match store_result st run_id prompt_file test_case_file model_name
      system_message user_message response_content response_model_name status
      error_details now with
  | .ok (_, st') => st'.db
  | .error _ => st.db

/-- SQL `MIN` over a group of timestamps (the group is never empty for an
identifier drawn from the table). -/
def minNat : List Nat → Nat
  | [] => 0
  | x :: xs => xs.foldl Nat.min x

/-- Minimum `run_started_timestamp` among the rows of one run. -/
def minStart (db : List ExperimentRow) (run_id : String) : Nat :=
  minNat ((db.filter (fun row => decide (row.run_id = run_id))).map
    (fun row => row.run_started_timestamp))

/-- `ExperimentStorage.get_all_run_ids` (`src/src/storage.py`,
lines 243-252): distinct run identifiers ordered by the earliest
`run_started_timestamp` of the run. -/
def get_all_run_ids (db : List ExperimentRow) : List String :=
  sortLe (fun a b => decide (minStart db a ≤ minStart db b))
    ((db.map (fun row => row.run_id)).dedup)

/-- `ExperimentStorage.get_latest_run_id` (`src/src/storage.py`,
lines 225-234): the run identifier of the first row when ordered by
`run_started_timestamp` descending. -/
def get_latest_run_id (db : List ExperimentRow) : Option String :=
  ((sortLe (fun a b => decide (b.run_started_timestamp ≤ a.run_started_timestamp))
    db).head?).map (fun row => row.run_id)

/-- `TestRunner._store_experiment_result` (`src/src/test_runner.py`,
lines 286-299). -/
def _store_experiment_result (st : StorageState) (run_id : String)
    (result : ExperimentResult) (now : Nat) : Except String StorageState :=
  (store_result st run_id result.prompt_file result.test_case_file
    result.model_name result.system_message result.user_message
    result.response_content result.response_model_name result.status
    result.error_details now).map (fun p => p.2)

/-- The per-combination `ExperimentResult` computed inside the
`run_experiments` loop; `sysOf`/`userOf` model `load_file_content` on the
two files and `outcome` the completion call. -/
def run_core_result (sysOf userOf : String → String)
    (outcome : String × String × String → Except PyExc (String × String))
    (now : Nat) (c : String × String × String) : ExperimentResult :=
  _run_experiment_core c.1 c.2.1 c.2.2 (sysOf c.1) (userOf c.2.1) (outcome c) now 0

/-- The main loop of `TestRunner.run_experiments` (`src/src/test_runner.py`,
lines 455-466): execute each combination, store its result, count
successes; a storage failure propagates to the caller. -/
def run_loop (run_id : String) (sysOf userOf : String → String)
    (outcome : String × String × String → Except PyExc (String × String))
    (now : Nat) :
    List (String × String × String) → StorageState → Nat →
    Except String (StorageState × Nat)
  | [], st, successful_experiments => .ok (st, successful_experiments)
  | c :: rest, st, successful_experiments =>
    let result := run_core_result sysOf userOf outcome now c
    match _store_experiment_result st run_id result now with
    | .error e => .error e
    | .ok st' =>
        run_loop run_id sysOf userOf outcome now rest st'
          (if result.status = "success" then successful_experiments + 1
           else successful_experiments)

/-- `TestRunner.run_experiments` (`src/src/test_runner.py`, lines 433-472):
start the run, execute and store every combination, then complete the run
with the accumulated success count, returning the run identifier. -/
def run_experiments (st : StorageState) (run_id : String)
    (promptFiles testCaseFiles : List String)
    (configModels : Option (List String)) (availableModels : List String)
    (sysOf userOf : String → String)
    (outcome : String × String × String → Except PyExc (String × String))
    (config_snapshot : Option String) (now : Nat) :
    Except String (StorageState × String × Nat) :=
  let combinations := generate_experiment_combinations promptFiles
    testCaseFiles configModels availableModels
  let total_experiments := combinations.length
  let st1 := start_run st run_id total_experiments config_snapshot now
  match run_loop run_id sysOf userOf outcome now combinations st1 0 with
  | .error e => .error e
  | .ok (st2, successful_experiments) =>
      .ok (complete_run st2 run_id successful_experiments now, run_id,
        successful_experiments)

/-- Two invocations of `run_experiments` with the same run identifier and
unchanged prompt/test-case/model sets, the second starting from the storage
produced by the first. -/
def run_twice (run_id : String) (promptFiles testCaseFiles : List String)
    (configModels : Option (List String)) (availableModels : List String)
    (sysOf userOf : String → String)
    (outcome : String × String × String → Except PyExc (String × String))
    (config_snapshot : Option String) (now : Nat) :
    Except String (StorageState × String × Nat) :=
  match run_experiments emptyStorage run_id promptFiles testCaseFiles
      configModels availableModels sysOf userOf outcome config_snapshot now with
  | .error e => .error e
  | .ok (st1, _, _) =>
      run_experiments st1 run_id promptFiles testCaseFiles configModels
        availableModels sysOf userOf outcome config_snapshot now

/-- Whether a batch-level result is a normal completion. -/
def runResultOk : Except String (StorageState × String × Nat) → Bool
  | .ok _ => true
  | .error _ => false

/-- The stored table of a batch-level result (empty when the batch
aborted). -/
def runResultDb : Except String (StorageState × String × Nat) → List ExperimentRow
  | .ok (st, _, _) => st.db
  | .error _ => []

/-- The success count reported by a batch-level result. -/
def runResultCount : Except String (StorageState × String × Nat) → Nat
  | .ok (_, _, n) => n
  | .error _ => 0

/-- Whether a completion outcome is a success (no exception raised). -/
def outcome_ok : Except PyExc (String × String) → Bool
  | .ok _ => true
  | .error _ => false

/-- The number of combinations whose completion call fails. -/
def failure_count
    (outcome : String × String × String → Except PyExc (String × String))
    (cs : List (String × String × String)) : Nat :=
  cs.countP (fun c => !(outcome_ok (outcome c)))

/-- The uniqueness key of the row that a combination of run `run_id`
occupies. -/
def comboKey (run_id : String) (c : String × String × String) :
    String × String × String × String :=
  (run_id, c.1, c.2.1, c.2.2)

/-- The table invariant: at most one row per uniqueness key. -/
def KeyUnique (db : List ExperimentRow) : Prop :=
  (db.map rowKey).Nodup

/-- State of the fan-out in `run_experiments_async`
(`src/src/test_runner.py`, lines 416-422) combined with the semaphore
`self._rate_limiter = asyncio.Semaphore(max_concurrent_requests)` of
`LLMClient.__init__` (`src/promptester/llm_client.py`, line 71): how many
tasks have not yet entered `complete_async`'s `async with` block, how many
hold a semaphore slot (their provider call is in flight), and how many have
finished and released their slot. -/
structure PoolState where
  ready : Nat
  running : Nat
  finished : Nat
deriving DecidableEq

/-- One scheduler step: a task may enter the semaphore-guarded block only
while fewer than `cap` slots are taken (`asyncio.Semaphore` acquisition in
`complete_async`, lines 129-139), and leaving the block releases the
slot. -/
inductive PoolStep (cap : Nat) : PoolState → PoolState → Prop
  | start {s : PoolState} (hready : 0 < s.ready) (hcap : s.running < cap) :
      PoolStep cap s ⟨s.ready - 1, s.running + 1, s.finished⟩
  | finish {s : PoolState} (hrun : 0 < s.running) :
      PoolStep cap s ⟨s.ready, s.running - 1, s.finished + 1⟩

/-- States reachable from the initial fan-out of `n` scheduled tasks with
no call yet in flight. -/
inductive PoolReachable (cap n : Nat) : PoolState → Prop
  | init : PoolReachable cap n ⟨n, 0, 0⟩
  | step {s t : PoolState} (hs : PoolReachable cap n s) (hst : PoolStep cap s t) :
      PoolReachable cap n t

theorem pair_block_length (p : String) (ts ms : List String) :
    (ts.flatMap fun t => ms.map fun m => (p, t, m)).length = ts.length * ms.length := by
  induction ts with
  | nil => simp
  | cons t ts ih =>
    simp only [List.flatMap_cons, List.length_append, List.length_map, ih,
      List.length_cons]
    ring

theorem triple_product_length (ps ts ms : List String) :
    (ps.flatMap fun p => ts.flatMap fun t => ms.map fun m => (p, t, m)).length
      = ps.length * ts.length * ms.length := by
  induction ps with
  | nil => simp
  | cons p ps ih =>
    simp only [List.flatMap_cons, List.length_append, ih, pair_block_length,
      List.length_cons]
    ring

theorem triple_product_mem (ps ts ms : List String) (p t m : String) :
    (p, t, m) ∈ (ps.flatMap fun p' => ts.flatMap fun t' =>
        ms.map fun m' => (p', t', m')) ↔ p ∈ ps ∧ t ∈ ts ∧ m ∈ ms := by
  simp only [List.mem_flatMap, List.mem_map, Prod.mk.injEq]
  constructor
  · rintro ⟨a, ha, b, hb, c, hc, rfl, rfl, rfl⟩
    exact ⟨ha, hb, hc⟩
  · rintro ⟨hp, ht, hm⟩
    exact ⟨p, hp, t, ht, m, hm, rfl, rfl, rfl⟩

theorem mem_pair_block_fst (p : String) (ts ms : List String)
    (x : String × String × String)
    (hx : x ∈ ts.flatMap fun t => ms.map fun m => (p, t, m)) : x.1 = p := by
  simp only [List.mem_flatMap, List.mem_map] at hx
  obtain ⟨t, _, m, _, rfl⟩ := hx
  rfl

theorem triple_product_nodup (ps ts ms : List String)
    (hp : ps.Nodup) (ht : ts.Nodup) (hm : ms.Nodup) :
    (ps.flatMap fun p => ts.flatMap fun t =>
      ms.map fun m => (p, t, m)).Nodup := by
  apply List.nodup_flatMap.mpr
  refine ⟨fun p hpmem => ?_, ?_⟩
  · apply List.nodup_flatMap.mpr
    refine ⟨fun t htmem => hm.map ?_, ?_⟩
    · intro m₁ m₂ h
      exact congrArg (fun q => q.2.2) h
    · refine ht.imp ?_
      intro t₁ t₂ hne x hx₁ hx₂
      simp only [List.mem_map] at hx₁ hx₂
      obtain ⟨m₁, _, rfl⟩ := hx₁
      obtain ⟨m₂, _, h2⟩ := hx₂
      exact hne (congrArg (fun q => q.2.1) h2.symm)
  · refine hp.imp ?_
    intro p₁ p₂ hne x hx₁ hx₂
    exact hne ((mem_pair_block_fst p₁ ts ms x hx₁).symm.trans
      (mem_pair_block_fst p₂ ts ms x hx₂))

theorem rowKey_mk (st : StorageState) (run_id prompt_file test_case_file
    model_name system_message user_message : String)
    (response_content response_model_name : Option String) (status : String)
    (error_details : Option ErrorDetails) (now : Nat) :
    rowKey (mkExperimentRow st run_id prompt_file test_case_file model_name
      system_message user_message response_content response_model_name status
      error_details now) = (run_id, prompt_file, test_case_file, model_name) := rfl

theorem nodup_filter_ne_length {α : Type _} [DecidableEq α] (l : List α) (k : α)
    (h : l.Nodup) (hk : k ∈ l) :
    (l.filter (fun x => decide (x ≠ k))).length = l.length - 1 := by
  induction l with
  | nil => cases hk
  | cons a l ih =>
    rcases List.nodup_cons.mp h with ⟨hal, hl⟩
    rcases List.mem_cons.mp hk with rfl | hk'
    · have hall : ∀ x ∈ l, decide (x ≠ k) = true := by
        intro x hx
        simp only [decide_eq_true_eq]
        intro hxa
        exact hal (hxa ▸ hx)
      have hself : (decide (k ≠ k)) = false := by simp
      rw [List.filter_cons, hself]
      simp only [Bool.false_eq_true, if_false, List.filter_eq_self.mpr hall,
        List.length_cons]
      omega
    · have hak : (decide (a ≠ k)) = true := by
        simp only [decide_eq_true_eq]
        intro hak
        exact hal (hak ▸ hk')
      have hpos : 0 < l.length := List.length_pos_of_mem hk'
      rw [List.filter_cons, hak]
      simp only [if_true, List.length_cons, ih hl hk']
      omega

theorem store_insert_keys (st : StorageState) (row : ExperimentRow) :
    (store_insert st row).db.map rowKey =
      (st.db.map rowKey).filter (fun k => decide (k ≠ rowKey row)) ++ [rowKey row] := by
  simp only [store_insert, List.map_append, List.map_cons, List.map_nil]
  congr 1
  exact (@List.filter_map _ _ (fun k => decide (k ≠ rowKey row)) rowKey st.db).symm

theorem store_insert_keyUnique (st : StorageState) (row : ExperimentRow)
    (h : KeyUnique st.db) : KeyUnique (store_insert st row).db := by
  unfold KeyUnique at *
  rw [store_insert_keys]
  refine List.nodup_append.mpr ⟨h.filter _, List.nodup_singleton _, ?_⟩
  intro k hk hk'
  simp only [List.mem_filter, decide_eq_true_eq] at hk
  simp only [List.mem_singleton] at hk'
  exact hk.2 hk'

theorem store_insert_keys_mem (st : StorageState) (row : ExperimentRow)
    (k : String × String × String × String) :
    k ∈ (store_insert st row).db.map rowKey ↔
      k = rowKey row ∨ k ∈ st.db.map rowKey := by
  rw [store_insert_keys]
  simp only [List.mem_append, List.mem_filter, List.mem_singleton,
    decide_eq_true_eq]
  by_cases hk : k = rowKey row <;> simp [hk]

theorem store_insert_keys_toFinset (st : StorageState) (row : ExperimentRow) :
    ((store_insert st row).db.map rowKey).toFinset =
      insert (rowKey row) (st.db.map rowKey).toFinset := by
  ext k
  simp only [List.mem_toFinset, Finset.mem_insert, store_insert_keys_mem]

theorem store_insert_rows (st : StorageState) (row r' : ExperimentRow)
    (h : r' ∈ (store_insert st row).db) : r' ∈ st.db ∨ r' = row := by
  simp only [store_insert, List.mem_append, List.mem_filter,
    List.mem_singleton] at h
  tauto

theorem store_insert_length (st : StorageState) (row : ExperimentRow)
    (h : KeyUnique st.db) (hk : rowKey row ∈ st.db.map rowKey) :
    (store_insert st row).db.length = st.db.length := by
  simp only [store_insert, List.length_append, List.length_cons,
    List.length_nil]
  have hmf : (st.db.filter (fun r => decide (rowKey r ≠ rowKey row))).length
      = ((st.db.map rowKey).filter (fun k => decide (k ≠ rowKey row))).length := by
    calc (st.db.filter (fun r => decide (rowKey r ≠ rowKey row))).length
        = ((st.db.filter (fun r => decide (rowKey r ≠ rowKey row))).map rowKey).length := by
          rw [List.length_map]
      _ = ((st.db.map rowKey).filter (fun k => decide (k ≠ rowKey row))).length := by
          rw [@List.filter_map _ _ (fun k => decide (k ≠ rowKey row)) rowKey st.db]
          rfl
  have hpos : 0 < (st.db.map rowKey).length := List.length_pos_of_mem hk
  have hlen := nodup_filter_ne_length (st.db.map rowKey) (rowKey row) h hk
  rw [hmf, hlen]
  simp only [List.length_map] at hpos ⊢
  omega

theorem status_of_exception_ne_success (e : PyExc) :
    status_of_exception e ≠ "success" := by
  cases e with
  | llm k m =>
    simp only [status_of_exception]
    cases k <;> decide
  | other t m =>
    simp only [status_of_exception]
    decide

theorem status_of_exception_valid (e : PyExc) :
    status_of_exception e ∈ validStatuses := by
  cases e with
  | llm k m =>
    simp only [status_of_exception]
    cases k <;> decide
  | other t m =>
    simp only [status_of_exception]
    decide

theorem run_core_fields (sysOf userOf : String → String)
    (o : String × String × String → Except PyExc (String × String))
    (now : Nat) (c : String × String × String) :
    (run_core_result sysOf userOf o now c).prompt_file = c.1 ∧
    (run_core_result sysOf userOf o now c).test_case_file = c.2.1 ∧
    (run_core_result sysOf userOf o now c).model_name = c.2.2 := by
  cases h : o c with
  | ok v =>
    obtain ⟨content, response_model⟩ := v
    simp [run_core_result, _run_experiment_core, _create_experiment_result, h]
  | error e =>
    simp [run_core_result, _run_experiment_core, _create_experiment_result,
      _handle_experiment_error, h]

theorem run_core_status (sysOf userOf : String → String)
    (o : String × String × String → Except PyExc (String × String))
    (now : Nat) (c : String × String × String) :
    (run_core_result sysOf userOf o now c).status =
      match o c with
      | .ok _ => "success"
      | .error e => status_of_exception e := by
  cases h : o c with
  | ok v =>
    obtain ⟨content, response_model⟩ := v
    simp [run_core_result, _run_experiment_core, _create_experiment_result, h]
  | error e =>
    simp [run_core_result, _run_experiment_core, _create_experiment_result,
      _handle_experiment_error, h]

theorem run_core_status_valid (sysOf userOf : String → String)
    (o : String × String × String → Except PyExc (String × String))
    (now : Nat) (c : String × String × String) :
    (run_core_result sysOf userOf o now c).status ∈ validStatuses := by
  rw [run_core_status]
  cases h : o c with
  | ok v =>
    show ("success" : String) ∈ validStatuses
    decide
  | error e => exact status_of_exception_valid e

theorem run_core_status_success_iff (sysOf userOf : String → String)
    (o : String × String × String → Except PyExc (String × String))
    (now : Nat) (c : String × String × String) :
    ((run_core_result sysOf userOf o now c).status = "success") ↔
      outcome_ok (o c) = true := by
  rw [run_core_status]
  cases h : o c with
  | ok v => simp [outcome_ok]
  | error e => simp [outcome_ok, status_of_exception_ne_success e]

/-- The storage state after a successful `_store_experiment_result` call. -/
def store_ok_state (st : StorageState) (run_id : String)
    (result : ExperimentResult) (now : Nat) : StorageState :=
  store_insert st (mkExperimentRow st run_id result.prompt_file
    result.test_case_file result.model_name result.system_message
    result.user_message result.response_content result.response_model_name
    result.status result.error_details now)

theorem store_experiment_result_ok (st : StorageState) (run_id : String)
    (result : ExperimentResult) (now : Nat)
    (h : result.status ∈ validStatuses) :
    _store_experiment_result st run_id result now =
      .ok (store_ok_state st run_id result now) := by
  unfold _store_experiment_result store_result store_ok_state
  rw [if_pos h]
  rfl

/-- The pure storage effect of the `run_experiments` loop. -/
def run_fold (run_id : String) (sysOf userOf : String → String)
    (outcome : String × String × String → Except PyExc (String × String))
    (now : Nat) :
    List (String × String × String) → StorageState → StorageState
  | [], st => st
  | c :: rest, st =>
      run_fold run_id sysOf userOf outcome now rest
        (store_ok_state st run_id (run_core_result sysOf userOf outcome now c) now)

theorem run_loop_eq (run_id : String) (sysOf userOf : String → String)
    (o : String × String × String → Except PyExc (String × String))
    (now : Nat) (cs : List (String × String × String)) :
    ∀ (st : StorageState) (succ : Nat),
    run_loop run_id sysOf userOf o now cs st succ =
      .ok (run_fold run_id sysOf userOf o now cs st,
        succ + cs.countP (fun c => outcome_ok (o c))) := by
  induction cs with
  | nil => intro st succ; simp [run_loop, run_fold]
  | cons c rest ih =>
    intro st succ
    rw [run_loop, store_experiment_result_ok _ _ _ _
      (run_core_status_valid sysOf userOf o now c)]
    simp only [run_fold, ih, List.countP_cons]
    congr 1
    by_cases hc : outcome_ok (o c) = true
    · rw [if_pos ((run_core_status_success_iff sysOf userOf o now c).mpr hc)]
      simp [hc]
      omega
    · rw [if_neg (fun hs => hc ((run_core_status_success_iff sysOf userOf o now c).mp hs))]
      simp only [Bool.not_eq_true] at hc
      simp [hc]

theorem store_ok_state_keys_toFinset (st : StorageState) (run_id : String)
    (result : ExperimentResult) (now : Nat) :
    ((store_ok_state st run_id result now).db.map rowKey).toFinset =
      insert (run_id, result.prompt_file, result.test_case_file,
        result.model_name) ((st.db.map rowKey).toFinset) := by
  unfold store_ok_state
  rw [store_insert_keys_toFinset, rowKey_mk]

theorem run_core_comboKey (run_id : String) (sysOf userOf : String → String)
    (o : String × String × String → Except PyExc (String × String))
    (now : Nat) (c : String × String × String) :
    (run_id, (run_core_result sysOf userOf o now c).prompt_file,
      (run_core_result sysOf userOf o now c).test_case_file,
      (run_core_result sysOf userOf o now c).model_name) = comboKey run_id c := by
  obtain ⟨h1, h2, h3⟩ := run_core_fields sysOf userOf o now c
  simp [comboKey, h1, h2, h3]

theorem run_fold_keyUnique (run_id : String) (sysOf userOf : String → String)
    (o : String × String × String → Except PyExc (String × String))
    (now : Nat) (cs : List (String × String × String)) :
    ∀ st : StorageState, KeyUnique st.db →
      KeyUnique (run_fold run_id sysOf userOf o now cs st).db := by
  induction cs with
  | nil => intro st h; exact h
  | cons c rest ih =>
    intro st h
    exact ih _ (store_insert_keyUnique _ _ h)

theorem run_fold_keys_toFinset (run_id : String) (sysOf userOf : String → String)
    (o : String × String × String → Except PyExc (String × String))
    (now : Nat) (cs : List (String × String × String)) :
    ∀ st : StorageState,
      ((run_fold run_id sysOf userOf o now cs st).db.map rowKey).toFinset =
        (st.db.map rowKey).toFinset ∪ (cs.map (comboKey run_id)).toFinset := by
  induction cs with
  | nil => intro st; simp [run_fold]
  | cons c rest ih =>
    intro st
    rw [run_fold, ih, store_ok_state_keys_toFinset, run_core_comboKey]
    ext x
    simp only [Finset.mem_union, Finset.mem_insert, List.map_cons,
      List.toFinset_cons, List.mem_toFinset]
    tauto

theorem run_fold_rows (run_id : String) (sysOf userOf : String → String)
    (o : String × String × String → Except PyExc (String × String))
    (now : Nat) (cs : List (String × String × String)) :
    ∀ (st : StorageState) (r' : ExperimentRow),
      r' ∈ (run_fold run_id sysOf userOf o now cs st).db →
        r' ∈ st.db ∨ r'.run_id = run_id := by
  induction cs with
  | nil => intro st r' h; exact Or.inl h
  | cons c rest ih =>
    intro st r' h
    rcases ih _ r' h with h' | h'
    · rcases store_insert_rows _ _ _ h' with h'' | rfl
      · exact Or.inl h''
      · right; rfl
    · exact Or.inr h'

theorem complete_run_db_map (st : StorageState) (r : String) (n now : Nat) :
    (complete_run st r n now).db.map rowKey = st.db.map rowKey := by
  simp only [complete_run, List.map_map]
  apply List.map_congr_left
  intro row hrow
  by_cases h : row.run_id = r <;> simp [Function.comp, h, rowKey]

theorem complete_run_keyUnique (st : StorageState) (r : String) (n now : Nat)
    (h : KeyUnique st.db) : KeyUnique (complete_run st r n now).db := by
  unfold KeyUnique
  rw [complete_run_db_map]
  exact h

theorem complete_run_length (st : StorageState) (r : String) (n now : Nat) :
    (complete_run st r n now).db.length = st.db.length := by
  simp [complete_run]

theorem complete_run_rows_of_all (st : StorageState) (r : String) (n now : Nat)
    (h : ∀ row ∈ st.db, row.run_id = r) :
    ∀ row' ∈ (complete_run st r n now).db,
      row'.run_id = r ∧ row'.run_completed_timestamp = some now ∧
      row'.run_successful_experiments = some n := by
  intro row' h'
  simp only [complete_run, List.mem_map] at h'
  obtain ⟨row, hrow, rfl⟩ := h'
  rw [if_pos (h row hrow)]
  exact ⟨h row hrow, rfl, rfl⟩

theorem complete_run_db_of_none (st : StorageState) (r : String) (n now : Nat)
    (h : ∀ row ∈ st.db, row.run_id ≠ r) :
    (complete_run st r n now).db = st.db := by
  simp only [complete_run]
  conv_rhs => rw [← List.map_id st.db]
  apply List.map_congr_left
  intro row hrow
  simp [if_neg (h row hrow)]

/-- The success count accumulated by the `run_experiments` loop. -/
def run_succ_count
    (o : String × String × String → Except PyExc (String × String))
    (cs : List (String × String × String)) : Nat :=
  cs.countP (fun c => outcome_ok (o c))

/-- The storage state in which a completed `run_experiments` call leaves the
store. -/
def run_final (st : StorageState) (run_id : String)
    (ps ts : List String) (cm : Option (List String)) (am : List String)
    (sysOf userOf : String → String)
    (o : String × String × String → Except PyExc (String × String))
    (cfg : Option String) (now : Nat) : StorageState :=
  complete_run
    (run_fold run_id sysOf userOf o now
      (generate_experiment_combinations ps ts cm am)
      (start_run st run_id
        (generate_experiment_combinations ps ts cm am).length cfg now))
    run_id (run_succ_count o (generate_experiment_combinations ps ts cm am)) now

theorem run_experiments_eq (st : StorageState) (run_id : String)
    (ps ts : List String) (cm : Option (List String)) (am : List String)
    (sysOf userOf : String → String)
    (o : String × String × String → Except PyExc (String × String))
    (cfg : Option String) (now : Nat) :
    run_experiments st run_id ps ts cm am sysOf userOf o cfg now =
      .ok (run_final st run_id ps ts cm am sysOf userOf o cfg now, run_id,
        run_succ_count o (generate_experiment_combinations ps ts cm am)) := by
  unfold run_experiments run_final run_succ_count
  simp only [run_loop_eq, Nat.zero_add]

theorem generate_none_eq (ps ts ms : List String) :
    generate_experiment_combinations ps ts none ms =
      (discover_prompts ps).flatMap (fun p =>
        (discover_test_cases ts).flatMap (fun t =>
          ms.map (fun m => (p, t, m)))) := rfl

theorem generate_none_length (ps ts ms : List String) :
    (generate_experiment_combinations ps ts none ms).length =
      ps.length * ts.length * ms.length := by
  rw [generate_none_eq, triple_product_length]
  unfold discover_prompts discover_test_cases
  rw [sortLe_length, sortLe_length]

theorem generate_none_nodup (ps ts ms : List String)
    (hp : ps.Nodup) (ht : ts.Nodup) (hm : ms.Nodup) :
    (generate_experiment_combinations ps ts none ms).Nodup := by
  rw [generate_none_eq]
  exact triple_product_nodup _ _ _ (sortLe_nodup _ _ hp) (sortLe_nodup _ _ ht) hm

theorem generate_none_mem (ps ts ms : List String) (p t m : String) :
    (p, t, m) ∈ generate_experiment_combinations ps ts none ms ↔
      p ∈ ps ∧ t ∈ ts ∧ m ∈ ms := by
  rw [generate_none_eq, triple_product_mem]
  unfold discover_prompts discover_test_cases
  rw [sortLe_mem, sortLe_mem]

theorem comboKey_injective (r : String) : Function.Injective (comboKey r) := by
  intro a b h
  simp only [comboKey, Prod.mk.injEq] at h
  obtain ⟨-, h1, h2, h3⟩ := h
  exact Prod.ext h1 (Prod.ext h2 h3)

theorem succ_eq_total_sub_failures
    (o : String × String × String → Except PyExc (String × String))
    (cs : List (String × String × String)) :
    run_succ_count o cs = cs.length - failure_count o cs := by
  unfold run_succ_count failure_count
  have h := List.length_eq_countP_add_countP (fun c => outcome_ok (o c)) cs
  have h2 : cs.countP (fun c => decide ¬(outcome_ok (o c) = true)) =
      cs.countP (fun c => !(outcome_ok (o c))) := by
    apply List.countP_congr
    intro c _
    cases houtcome : outcome_ok (o c) <;> rfl
  omega

theorem keyset_length (db : List ExperimentRow)
    (cs : List (String × String × String)) (r : String)
    (hku : KeyUnique db)
    (hset : (db.map rowKey).toFinset = (cs.map (comboKey r)).toFinset)
    (hnodup : cs.Nodup) : db.length = cs.length := by
  have hkeys : (cs.map (comboKey r)).Nodup := hnodup.map (comboKey_injective r)
  have h1 : db.length = (db.map rowKey).length := (List.length_map db rowKey).symm
  have h2 : (db.map rowKey).toFinset.card = (db.map rowKey).length :=
    List.toFinset_card_of_nodup hku
  have h3 : (cs.map (comboKey r)).toFinset.card = (cs.map (comboKey r)).length :=
    List.toFinset_card_of_nodup hkeys
  rw [h1, ← h2, hset, h3, List.length_map]

theorem run_final_facts (st : StorageState) (run_id : String)
    (ps ts : List String) (cm : Option (List String)) (am : List String)
    (sysOf userOf : String → String)
    (o : String × String × String → Except PyExc (String × String))
    (cfg : Option String) (now : Nat)
    (hku : KeyUnique st.db)
    (hrun : ∀ row ∈ st.db, row.run_id = run_id) :
    KeyUnique (run_final st run_id ps ts cm am sysOf userOf o cfg now).db ∧
    ((run_final st run_id ps ts cm am sysOf userOf o cfg now).db.map
        rowKey).toFinset =
      (st.db.map rowKey).toFinset ∪
        ((generate_experiment_combinations ps ts cm am).map
          (comboKey run_id)).toFinset ∧
    (∀ row ∈ (run_final st run_id ps ts cm am sysOf userOf o cfg now).db,
      row.run_id = run_id ∧
      row.run_successful_experiments =
        some (run_succ_count o (generate_experiment_combinations ps ts cm am))) := by
  unfold run_final
  have hstart : (start_run st run_id
      (generate_experiment_combinations ps ts cm am).length cfg now).db = st.db := rfl
  refine ⟨?_, ?_, ?_⟩
  · apply complete_run_keyUnique
    apply run_fold_keyUnique
    rw [hstart]
    exact hku
  · rw [show ∀ stx : StorageState, ∀ rx nx nwx,
        ((complete_run stx rx nx nwx).db.map rowKey) = stx.db.map rowKey
        from fun stx rx nx nwx => complete_run_db_map stx rx nx nwx]
    rw [run_fold_keys_toFinset, hstart]
  · intro row hrow
    have hall : ∀ row' ∈ (run_fold run_id sysOf userOf o now
        (generate_experiment_combinations ps ts cm am)
        (start_run st run_id
          (generate_experiment_combinations ps ts cm am).length cfg now)).db,
        row'.run_id = run_id := by
      intro row' hrow'
      rcases run_fold_rows run_id sysOf userOf o now _ _ row' hrow' with h' | h'
      · rw [hstart] at h'
        exact hrun row' h'
      · exact h'
    have := complete_run_rows_of_all _ _ _ _ hall row hrow
    exact ⟨this.1, this.2.2⟩

theorem mem_get_all_run_ids (db : List ExperimentRow) (r : String)
    (h : r ∈ get_all_run_ids db) : ∃ row ∈ db, row.run_id = r := by
  unfold get_all_run_ids at h
  rw [sortLe_mem, List.mem_dedup] at h
  obtain ⟨row, hrow, rfl⟩ := List.mem_map.mp h
  exact ⟨row, hrow, rfl⟩

theorem get_latest_run_id_mem (db : List ExperimentRow) (r : String)
    (h : get_latest_run_id db = some r) : ∃ row ∈ db, row.run_id = r := by
  unfold get_latest_run_id at h
  cases hh : (sortLe (fun a b =>
      decide (b.run_started_timestamp ≤ a.run_started_timestamp)) db).head? with
  | none => rw [hh] at h; cases h
  | some row =>
    rw [hh] at h
    have h : row.run_id = r := by simpa using h
    have hmem : row ∈ sortLe (fun a b =>
        decide (b.run_started_timestamp ≤ a.run_started_timestamp)) db :=
      List.mem_of_mem_head? (by rw [hh]; rfl)
    rw [sortLe_mem] at hmem
    exact ⟨row, hmem, h⟩

/-- C2 (counterexample): the claim requires all three input sequences of
`generate_experiment_combinations` to be pre-sorted by identifier, but the
configured model list is used in configuration order: with models
`["mb", "ma"]` the enumeration emits the model components in the order
`["mb", "ma"]`, which is not sorted. -/
theorem C2_counterexample :
    ((generate_experiment_combinations ["alpha.md"] ["x.md"] none
        ["mb", "ma"]).map (fun c => c.2.2)) = ["mb", "ma"] ∧
    ¬ List.Pairwise (fun a b => str_le a b = true) ["mb", "ma"] := by
  constructor
  · decide
  · intro h
    have := (List.pairwise_cons.mp h).1 "ma" (by simp)
    exact absurd this (by decide)

/-- C2 (amended): for Nodup prompt files, test-case files and configured
models, `generate_experiment_combinations` yields exactly P×T×M distinct
triples, each appearing exactly once, in prompt-major, then test-case, then
model order, with the prompt and test-case sequences pre-sorted by
identifier and the model sequence in configuration order; each call
re-derives the product from the current inputs. -/
theorem C2_product_enumeration (ps ts ms : List String)
    (hp : ps.Nodup) (ht : ts.Nodup) (hm : ms.Nodup) :
    (generate_experiment_combinations ps ts none ms).length =
      ps.length * ts.length * ms.length ∧
    (generate_experiment_combinations ps ts none ms).Nodup ∧
    (∀ p t m, (p, t, m) ∈ generate_experiment_combinations ps ts none ms ↔
      p ∈ ps ∧ t ∈ ts ∧ m ∈ ms) ∧
    List.Pairwise (fun a b => str_le a b = true) (discover_prompts ps) ∧
    List.Pairwise (fun a b => str_le a b = true) (discover_test_cases ts) ∧
    generate_experiment_combinations ps ts none ms =
      (discover_prompts ps).flatMap (fun p =>
        (discover_test_cases ts).flatMap (fun t =>
          ms.map (fun m => (p, t, m)))) := by
  refine ⟨generate_none_length ps ts ms, generate_none_nodup ps ts ms hp ht hm,
    fun p t m => generate_none_mem ps ts ms p t m, ?_, ?_, generate_none_eq ps ts ms⟩
  · exact sortLe_sorted str_le str_le_total str_le_trans ps
  · exact sortLe_sorted str_le str_le_total str_le_trans ts

/-- C2 (witness): the amended enumeration facts at a concrete instance. -/
theorem C2_witness :
    (generate_experiment_combinations ["b.md", "a.md"] ["x.md"] none
      ["m1"]).length = 2 ∧
    (generate_experiment_combinations ["b.md", "a.md"] ["x.md"] none
      ["m1"]).Nodup ∧
    (("a.md", "x.md", "m1") ∈ generate_experiment_combinations
        ["b.md", "a.md"] ["x.md"] none ["m1"] ↔
      "a.md" ∈ ["b.md", "a.md"] ∧ "x.md" ∈ ["x.md"] ∧ "m1" ∈ ["m1"]) := by
  obtain ⟨h1, h2, h3, -, -, -⟩ := C2_product_enumeration ["b.md", "a.md"]
    ["x.md"] ["m1"] (by decide) (by decide) (by decide)
  exact ⟨h1, h2, h3 "a.md" "x.md" "m1"⟩

/-- C3 (counterexample): a provider error message matching none of the
recognized patterns is classified `APIError` by the client and stored as
`api_error` by the engine, not as `unknown_error`. -/
theorem C3_counterexample :
    occursIn (str_lower "something inexplicable happened") "rate limit" = false ∧
    occursIn (str_lower "something inexplicable happened") "429" = false ∧
    occursIn (str_lower "something inexplicable happened") "authentication" = false ∧
    occursIn (str_lower "something inexplicable happened") "timeout" = false ∧
    occursIn (str_lower "something inexplicable happened") "network" = false ∧
    occursIn (str_lower "something inexplicable happened") "connection" = false ∧
    occursIn (str_lower "something inexplicable happened") "model" = false ∧
    pipeline_status "something inexplicable happened" "gpt-4" = "api_error" ∧
    pipeline_status "something inexplicable happened" "gpt-4" ≠ "unknown_error" := by
  decide

/-- C3 (amended): for every provider error whose message matches none of the
recognized patterns (no rate-limit/429 or quota/billing, no
authentication/API-key/401, no timeout, no network/connection, no
invalid-model indicator), the classification pipeline produces the stored
status `api_error` — the catch-all `APIError` kind — while `unknown_error`
is reserved for exceptions outside the client's taxonomy. -/
theorem C3_unrecognized_api_error (error model_name : String)
    (h1 : occursIn (str_lower error) "rate limit" = false)
    (h2 : occursIn (str_lower error) "429" = false)
    (h3 : occursIn (str_lower error) "api key" = false)
    (h4 : occursIn (str_lower error) "authentication" = false)
    (h5 : occursIn (str_lower error) "401" = false)
    (h6 : occursIn (str_lower error) "timeout" = false)
    (h7 : occursIn (str_lower error) "network" = false)
    (h8 : occursIn (str_lower error) "connection" = false)
    (h9 : occursIn (str_lower error) "model" = false ∨
      (occursIn (str_lower error) "not found" = false ∧
       occursIn (str_lower error) "invalid" = false))
    (h10 : occursIn (str_lower error) "gemini_api_key" = false)
    (h11 : occursIn (str_lower error) "google_api_key" = false)
    (h12 : occursIn (str_lower error) "quota exceeded" = false)
    (h13 : occursIn (str_lower error) "billing" = false) :
    pipeline_status error model_name = "api_error" := by
  have hstat : ∀ msg, status_of_exception (.llm .APIError msg) = "api_error" :=
    fun _ => rfl
  by_cases hg : occursIn (str_lower model_name) "gemini" = true
  · rcases h9 with h9 | ⟨h9a, h9b⟩
    · simp [pipeline_status, _classify_error, classify_general, hg, h1, h2, h3,
        h4, h5, h6, h7, h8, h9, h10, h11, h12, h13, hstat]
    · simp [pipeline_status, _classify_error, classify_general, hg, h1, h2, h3,
        h4, h5, h6, h7, h8, h9a, h9b, h10, h11, h12, h13, hstat]
  · have hg' : occursIn (str_lower model_name) "gemini" = false :=
      Bool.not_eq_true _ ▸ hg
    rcases h9 with h9 | ⟨h9a, h9b⟩
    · simp [pipeline_status, _classify_error, classify_general, hg', h1, h2, h3,
        h4, h5, h6, h7, h8, h9, h10, h11, h12, h13, hstat]
    · simp [pipeline_status, _classify_error, classify_general, hg', h1, h2, h3,
        h4, h5, h6, h7, h8, h9a, h9b, h10, h11, h12, h13, hstat]

/-- C3 (witness): the amended classification at a concrete unrecognized
message. -/
theorem C3_witness :
    pipeline_status "flux capacitor desynchronized" "gpt-4" = "api_error" :=
  C3_unrecognized_api_error "flux capacitor desynchronized" "gpt-4"
    (by decide) (by decide) (by decide) (by decide) (by decide) (by decide)
    (by decide) (by decide) (Or.inl (by decide)) (by decide) (by decide)
    (by decide) (by decide)

/-- C7 (counterexample): a provider error containing "429" sent for a Gemini
model whose message also names the Gemini API key is pre-empted by the
Gemini-specific authentication branch and stored as `api_error`, not
`rate_limit`. -/
theorem C7_counterexample :
    occursIn (str_lower "429 error: gemini_api_key invalid") "429" = true ∧
    pipeline_status "429 error: gemini_api_key invalid" "gemini-pro" =
      "api_error" ∧
    pipeline_status "429 error: gemini_api_key invalid" "gemini-pro" ≠
      "rate_limit" := by
  decide

/-- C7 (amended): a provider error containing "429" or "rate limit"
classifies as `rate_limit` unless the model is a Gemini model and the
message also names the Gemini/Google API key (which the Gemini-specific
authentication branch pre-empts into `api_error`); an error containing
"timeout" classifies as `timeout` when no rate-limit (429/"rate limit",
Gemini quota/billing) or authentication (API-key/401, Gemini key) indicator
matched first. -/
theorem C7_rate_limit_timeout (error model_name : String) :
    ((occursIn (str_lower error) "rate limit" = true ∨
      occursIn (str_lower error) "429" = true) →
     ¬ (occursIn (str_lower model_name) "gemini" = true ∧
        (occursIn (str_lower error) "gemini_api_key" = true ∨
         occursIn (str_lower error) "google_api_key" = true)) →
     pipeline_status error model_name = "rate_limit") ∧
    (occursIn (str_lower error) "timeout" = true →
     occursIn (str_lower error) "rate limit" = false →
     occursIn (str_lower error) "429" = false →
     occursIn (str_lower error) "api key" = false →
     occursIn (str_lower error) "authentication" = false →
     occursIn (str_lower error) "401" = false →
     ¬ (occursIn (str_lower model_name) "gemini" = true ∧
        (occursIn (str_lower error) "gemini_api_key" = true ∨
         occursIn (str_lower error) "google_api_key" = true)) →
     ¬ (occursIn (str_lower model_name) "gemini" = true ∧
        (occursIn (str_lower error) "quota exceeded" = true ∨
         occursIn (str_lower error) "billing" = true)) →
     pipeline_status error model_name = "timeout") := by
  have hstatRL : ∀ msg, status_of_exception (.llm .RateLimitError msg) =
      "rate_limit" := fun _ => rfl
  have hstatTO : ∀ msg, status_of_exception (.llm .TimeoutError msg) =
      "timeout" := fun _ => rfl
  constructor
  · intro h429 hga
    have h429' : (occursIn (str_lower error) "rate limit" ||
        occursIn (str_lower error) "429") = true := by
      rcases h429 with h | h <;> simp [h]
    by_cases hg : occursIn (str_lower model_name) "gemini" = true
    · have hb1 : occursIn (str_lower error) "gemini_api_key" = false := by
        cases hx : occursIn (str_lower error) "gemini_api_key"
        · rfl
        · exact absurd ⟨hg, Or.inl hx⟩ hga
      have hb2 : occursIn (str_lower error) "google_api_key" = false := by
        cases hx : occursIn (str_lower error) "google_api_key"
        · rfl
        · exact absurd ⟨hg, Or.inr hx⟩ hga
      by_cases hq : (occursIn (str_lower error) "quota exceeded" ||
          occursIn (str_lower error) "billing") = true
      · simp [pipeline_status, _classify_error, hg, hb1, hb2, hq, hstatRL]
      · have hq' : (occursIn (str_lower error) "quota exceeded" ||
            occursIn (str_lower error) "billing") = false :=
          Bool.not_eq_true _ ▸ hq
        simp [pipeline_status, _classify_error, classify_general, hg, hb1, hb2,
          hq', h429', hstatRL]
    · have hg' : occursIn (str_lower model_name) "gemini" = false :=
        Bool.not_eq_true _ ▸ hg
      simp [pipeline_status, _classify_error, classify_general, hg', h429',
        hstatRL]
  · intro hto h1 h2 h3 h4 h5 hga hqb
    by_cases hg : occursIn (str_lower model_name) "gemini" = true
    · have hb1 : occursIn (str_lower error) "gemini_api_key" = false := by
        cases hx : occursIn (str_lower error) "gemini_api_key"
        · rfl
        · exact absurd ⟨hg, Or.inl hx⟩ hga
      have hb2 : occursIn (str_lower error) "google_api_key" = false := by
        cases hx : occursIn (str_lower error) "google_api_key"
        · rfl
        · exact absurd ⟨hg, Or.inr hx⟩ hga
      have hq1 : occursIn (str_lower error) "quota exceeded" = false := by
        cases hx : occursIn (str_lower error) "quota exceeded"
        · rfl
        · exact absurd ⟨hg, Or.inl hx⟩ hqb
      have hq2 : occursIn (str_lower error) "billing" = false := by
        cases hx : occursIn (str_lower error) "billing"
        · rfl
        · exact absurd ⟨hg, Or.inr hx⟩ hqb
      simp [pipeline_status, _classify_error, classify_general, hg, hb1, hb2,
        hq1, hq2, hto, h1, h2, h3, h4, h5, hstatTO]
    · have hg' : occursIn (str_lower model_name) "gemini" = false :=
        Bool.not_eq_true _ ▸ hg
      simp [pipeline_status, _classify_error, classify_general, hg', hto, h1,
        h2, h3, h4, h5, hstatTO]

/-- C7 (witness): concrete rate-limit and timeout classifications. -/
theorem C7_witness :
    pipeline_status "rate limit exceeded" "gpt-4" = "rate_limit" ∧
    pipeline_status "request timeout after 30s" "gpt-4" = "timeout" := by
  constructor
  · exact (C7_rate_limit_timeout "rate limit exceeded" "gpt-4").1
      (Or.inl (by decide)) (by decide)
  · exact (C7_rate_limit_timeout "request timeout after 30s" "gpt-4").2
      (by decide) (by decide) (by decide) (by decide) (by decide) (by decide)
      (by decide) (by decide)

/-- C4 (confirmed): the per-combination core never raises — every completion
failure, including exceptions outside the client's taxonomy, is captured
into an `ExperimentResult` that is returned normally, carrying a failing
status from the closed enumeration (`unknown_error` for unclassified
exceptions) and the raised detail preserved in the structured error
field. -/
theorem C4_run_once_total (pf tf mn sm um : String) (e : PyExc)
    (now elapsed : Nat) :
    (_run_experiment_core pf tf mn sm um (Except.error e) now elapsed).status =
      status_of_exception e ∧
    (_run_experiment_core pf tf mn sm um (Except.error e) now elapsed).status ≠
      "success" ∧
    (_run_experiment_core pf tf mn sm um (Except.error e) now elapsed).status ∈
      validStatuses ∧
    (_run_experiment_core pf tf mn sm um (Except.error e) now elapsed).error_details =
      some ⟨e.errorTypeName, e.errorMessage, now⟩ ∧
    (∀ t m, e = PyExc.other t m →
      (_run_experiment_core pf tf mn sm um (Except.error e) now elapsed).status =
        "unknown_error") ∧
    (∀ v : String × String,
      (_run_experiment_core pf tf mn sm um (Except.ok v) now elapsed).status =
        "success") := by
  refine ⟨rfl, ?_, ?_, rfl, ?_, ?_⟩
  · show status_of_exception e ≠ "success"
    exact status_of_exception_ne_success e
  · show status_of_exception e ∈ validStatuses
    exact status_of_exception_valid e
  · intro t m he
    subst he
    rfl
  · intro v
    obtain ⟨content, response_model⟩ := v
    rfl

/-- C4 (witness): an exception outside the taxonomy is stored as
`unknown_error`; a successful call is stored as `success`. -/
theorem C4_witness :
    (_run_experiment_core "a.md" "x.md" "m1" "sys" "usr"
      (Except.error (PyExc.other "ValueError" "boom")) 7 3).status =
      "unknown_error" ∧
    (_run_experiment_core "a.md" "x.md" "m1" "sys" "usr"
      (Except.ok ("hi", "m1")) 7 3).status = "success" := by
  constructor
  · exact (C4_run_once_total "a.md" "x.md" "m1" "sys" "usr"
      (PyExc.other "ValueError" "boom") 7 3).2.2.2.2.1 "ValueError" "boom" rfl
  · exact (C4_run_once_total "a.md" "x.md" "m1" "sys" "usr"
      (PyExc.other "ValueError" "boom") 7 3).2.2.2.2.2 ("hi", "m1")

/-- C5 (confirmed): for a model identifier absent from
`get_available_models`, both `complete` and `complete_async` fail
immediately with the invalid-configuration `ValueError` and perform zero
outbound provider calls. -/
theorem C5_invalid_model_no_network (c : LLMClient)
    (system_message user_message model_name : String) (net : NetResult)
    (h : model_name ∉ get_available_models c) :
    c.complete system_message user_message model_name net =
      (Except.error (PyExc.other "ValueError"
        (not_found_message c model_name)), 0) ∧
    c.complete_async system_message user_message model_name net =
      (Except.error (PyExc.other "ValueError"
        (not_found_message c model_name)), 0) := by
  unfold LLMClient.complete LLMClient.complete_async
  rw [if_pos h]
  exact ⟨rfl, rfl⟩

/-- C5 (witness): a concrete unknown model is rejected with no provider
call. -/
theorem C5_witness :
    LLMClient.complete ⟨[⟨"gpt-4", "k"⟩], 1, 5⟩ "s" "u" "claude-3"
      (NetResult.exc "x") =
      (Except.error (PyExc.other "ValueError"
        (not_found_message ⟨[⟨"gpt-4", "k"⟩], 1, 5⟩ "claude-3")), 0) ∧
    LLMClient.complete_async ⟨[⟨"gpt-4", "k"⟩], 1, 5⟩ "s" "u" "claude-3"
      (NetResult.exc "x") =
      (Except.error (PyExc.other "ValueError"
        (not_found_message ⟨[⟨"gpt-4", "k"⟩], 1, 5⟩ "claude-3")), 0) :=
  C5_invalid_model_no_network ⟨[⟨"gpt-4", "k"⟩], 1, 5⟩ "s" "u" "claude-3"
    (NetResult.exc "x") (by decide)

/-- C8 (confirmed): a `store_result` call whose status lies outside the
closed enumeration fails the `CHECK` constraint and leaves the table
unchanged, and every table reachable through `store_result`/`complete_run`
writes carries only statuses from the enumeration. -/
theorem C8_status_check :
    (∀ (st : StorageState) (run_id prompt_file test_case_file model_name
        system_message user_message : String)
        (response_content response_model_name : Option String)
        (status : String) (error_details : Option ErrorDetails) (now : Nat),
      status ∉ validStatuses →
        store_result st run_id prompt_file test_case_file model_name
          system_message user_message response_content response_model_name
          status error_details now = Except.error malformedStatusMsg ∧
        store_result_db st run_id prompt_file test_case_file model_name
          system_message user_message response_content response_model_name
          status error_details now = st.db) ∧
    (∀ (st : StorageState) (run_id prompt_file test_case_file model_name
        system_message user_message : String)
        (response_content response_model_name : Option String)
        (status : String) (error_details : Option ErrorDetails) (now : Nat),
      (∀ row ∈ st.db, row.status ∈ validStatuses) →
        ∀ row ∈ store_result_db st run_id prompt_file test_case_file
            model_name system_message user_message response_content
            response_model_name status error_details now,
          row.status ∈ validStatuses) ∧
    (∀ (st : StorageState) (r : String) (n now : Nat),
      (∀ row ∈ st.db, row.status ∈ validStatuses) →
        ∀ row ∈ (complete_run st r n now).db, row.status ∈ validStatuses) := by
  refine ⟨?_, ?_, ?_⟩
  · intro st run_id pf tf mn sm um rc rm status ed now h
    unfold store_result_db store_result
    rw [if_neg h]
    exact ⟨rfl, rfl⟩
  · intro st run_id pf tf mn sm um rc rm status ed now hall row hrow
    unfold store_result_db store_result at hrow
    by_cases hv : status ∈ validStatuses
    · rw [if_pos hv] at hrow
      rcases store_insert_rows _ _ _ hrow with h' | rfl
      · exact hall row h'
      · exact hv
    · rw [if_neg hv] at hrow
      exact hall row hrow
  · intro st r n now hall row hrow
    simp only [complete_run, List.mem_map] at hrow
    obtain ⟨row', hrow', rfl⟩ := hrow
    by_cases h : row'.run_id = r
    · rw [if_pos h]
      exact hall row' hrow'
    · rw [if_neg h]
      exact hall row' hrow'

/-- C8 (witness): a concrete malformed status is rejected and the empty
table stays empty. -/
theorem C8_witness :
    store_result emptyStorage "r" "a.md" "x.md" "m1" "s" "u" none none
      "bogus" none 0 = Except.error malformedStatusMsg ∧
    store_result_db emptyStorage "r" "a.md" "x.md" "m1" "s" "u" none none
      "bogus" none 0 = [] :=
  C8_status_check.1 emptyStorage "r" "a.md" "x.md" "m1" "s" "u" none none
    "bogus" none 0 (by decide)

/-- C9 (confirmed): under bounded-concurrent mode with the client's
concurrency cap and more scheduled combinations than the cap, every
reachable scheduler state has at most `max_concurrent_requests` provider
calls in flight: a task acquires a semaphore slot before its call starts
and releases it when the call finishes. -/
theorem C9_concurrency_bound (c : LLMClient) (n : Nat) (s : PoolState)
    (hn : c.max_concurrent_requests < n)
    (hs : PoolReachable c.max_concurrent_requests n s) :
    s.running ≤ c.max_concurrent_requests := by
  induction hs with
  | init => exact Nat.zero_le _
  | step hs hst ih =>
    cases hst with
    | start hready hcap => exact hcap
    | finish hrun => simp only []; omega

/-- C9 (witness): with cap 2 and 6 tasks, the state after one task starts
is reachable and within the bound. -/
theorem C9_witness :
    (⟨5, 1, 0⟩ : PoolState).running ≤
      (⟨[⟨"gpt-4", "k"⟩], 1, 2⟩ : LLMClient).max_concurrent_requests := by
  have hreach : PoolReachable 2 6 ⟨5, 1, 0⟩ :=
    PoolReachable.step PoolReachable.init
      (PoolStep.start (by decide) (by decide))
  exact C9_concurrency_bound ⟨[⟨"gpt-4", "k"⟩], 1, 2⟩ 6 ⟨5, 1, 0⟩ (by decide)
    hreach

/-- C10 (confirmed): `start_run` performs no durable write — it only fills
the in-memory metadata cache — and even a subsequent `complete_run` updates
zero rows when no result was stored for the run, so the run identifier
appears in neither `get_all_run_ids` nor `get_latest_run_id`, and a fresh
storage instance over the same table recovers only default metadata: the
start timestamp, declared total and configuration snapshot are lost. -/
theorem C10_start_run_no_write (st : StorageState) (r : String)
    (total n : Nat) (cfg : Option String) (now now2 now3 : Nat)
    (h : ∀ row ∈ st.db, row.run_id ≠ r) :
    (start_run st r total cfg now).db = st.db ∧
    (complete_run (start_run st r total cfg now) r n now2).db = st.db ∧
    r ∉ get_all_run_ids (complete_run (start_run st r total cfg now) r n now2).db ∧
    get_latest_run_id (complete_run (start_run st r total cfg now) r n now2).db ≠
      some r ∧
    _get_run_metadata
      ⟨(complete_run (start_run st r total cfg now) r n now2).db, [], 1⟩ r now3 =
      ⟨now3, none, none, none, none⟩ := by
  have hdb : (start_run st r total cfg now).db = st.db := rfl
  have hcdb : (complete_run (start_run st r total cfg now) r n now2).db =
      st.db := by
    rw [complete_run_db_of_none]
    · exact hdb
    · intro row hrow
      rw [hdb] at hrow
      exact h row hrow
  refine ⟨hdb, hcdb, ?_, ?_, ?_⟩
  · intro hmem
    rw [hcdb] at hmem
    obtain ⟨row, hrow, hrid⟩ := mem_get_all_run_ids st.db r hmem
    exact h row hrow hrid
  · intro hlatest
    rw [hcdb] at hlatest
    obtain ⟨row, hrow, hrid⟩ := get_latest_run_id_mem st.db r hlatest
    exact h row hrow hrid
  · rw [hcdb]
    have hfind : st.db.find? (fun row => decide (row.run_id = r)) = none := by
      rw [List.find?_eq_none]
      intro row hrow hp
      exact h row hrow (by simpa using hp)
    simp [_get_run_metadata, lookupCache, hfind]

/-- C10 (witness): starting and completing a run on an empty store leaves
the table empty and the run invisible to the read APIs. -/
theorem C10_witness :
    (start_run emptyStorage "r1" 4 none 0).db = emptyStorage.db ∧
    (complete_run (start_run emptyStorage "r1" 4 none 0) "r1" 0 1).db =
      emptyStorage.db ∧
    "r1" ∉ get_all_run_ids
      (complete_run (start_run emptyStorage "r1" 4 none 0) "r1" 0 1).db := by
  have h := C10_start_run_no_write emptyStorage "r1" 4 0 none 0 1 2
    (by intro row hrow; simp [emptyStorage] at hrow)
  exact ⟨h.1, h.2.1, h.2.2.1⟩

/-- C6 (confirmed): over the P×T×M combinations, however many of them fail,
`run_experiments` completes normally, reports `successfulCount =
P×T×M − K` where `K` is the number of failing combinations, persists all
P×T×M results for the run, and stamps the final success count on every row
of the run; no per-combination failure aborts the batch. -/
theorem C6_isolation_counts (ps ts ms : List String)
    (hp : ps.Nodup) (ht : ts.Nodup) (hm : ms.Nodup)
    (r : String) (sysOf userOf : String → String)
    (o : String × String × String → Except PyExc (String × String))
    (cfg : Option String) (now : Nat) :
    runResultOk (run_experiments emptyStorage r ps ts none ms sysOf userOf o
      cfg now) = true ∧
    runResultCount (run_experiments emptyStorage r ps ts none ms sysOf userOf
      o cfg now) =
      (generate_experiment_combinations ps ts none ms).length -
        failure_count o (generate_experiment_combinations ps ts none ms) ∧
    (runResultDb (run_experiments emptyStorage r ps ts none ms sysOf userOf o
      cfg now)).length = ps.length * ts.length * ms.length ∧
    (∀ c ∈ generate_experiment_combinations ps ts none ms,
      comboKey r c ∈ (runResultDb (run_experiments emptyStorage r ps ts none
        ms sysOf userOf o cfg now)).map rowKey) ∧
    (∀ row ∈ runResultDb (run_experiments emptyStorage r ps ts none ms sysOf
        userOf o cfg now),
      row.run_id = r ∧
      row.run_successful_experiments = some (runResultCount (run_experiments
        emptyStorage r ps ts none ms sysOf userOf o cfg now))) := by
  have hku0 : KeyUnique emptyStorage.db := by
    simp [KeyUnique, emptyStorage]
  have hrun0 : ∀ row ∈ emptyStorage.db, row.run_id = r := by
    intro row hrow
    simp [emptyStorage] at hrow
  obtain ⟨hfku, hfset, hfrows⟩ := run_final_facts emptyStorage r ps ts none ms
    sysOf userOf o cfg now hku0 hrun0
  have hset' : ((run_final emptyStorage r ps ts none ms sysOf userOf o cfg
      now).db.map rowKey).toFinset =
      ((generate_experiment_combinations ps ts none ms).map
        (comboKey r)).toFinset := by
    rw [hfset]
    simp [emptyStorage]
  have hcsnodup := generate_none_nodup ps ts ms hp ht hm
  have hlen : (run_final emptyStorage r ps ts none ms sysOf userOf o cfg
      now).db.length = (generate_experiment_combinations ps ts none ms).length :=
    keyset_length _ _ r hfku hset' hcsnodup
  rw [run_experiments_eq]
  simp only [runResultOk, runResultCount, runResultDb]
  refine ⟨trivial, succ_eq_total_sub_failures o _, ?_, ?_, ?_⟩
  · rw [hlen, generate_none_length]
  · intro c hc
    have h1 : comboKey r c ∈ (generate_experiment_combinations ps ts none
        ms).map (comboKey r) := List.mem_map_of_mem _ hc
    have h2 := List.mem_toFinset.mpr h1
    rw [← hset'] at h2
    exact List.mem_toFinset.mp h2
  · intro row hrow
    exact hfrows row hrow

/-- C6 (witness): one combination whose completion times out — the batch
completes with zero successes and one persisted row. -/
theorem C6_witness :
    runResultOk (run_experiments emptyStorage "r" ["a.md"] ["x.md"] none
      ["m1"] id id (fun _ => Except.error (PyExc.llm .TimeoutError "t")) none
      0) = true ∧
    runResultCount (run_experiments emptyStorage "r" ["a.md"] ["x.md"] none
      ["m1"] id id (fun _ => Except.error (PyExc.llm .TimeoutError "t")) none
      0) = 0 ∧
    (runResultDb (run_experiments emptyStorage "r" ["a.md"] ["x.md"] none
      ["m1"] id id (fun _ => Except.error (PyExc.llm .TimeoutError "t")) none
      0)).length = 1 ∧
    comboKey "r" ("a.md", "x.md", "m1") ∈ (runResultDb (run_experiments
      emptyStorage "r" ["a.md"] ["x.md"] none ["m1"] id id
      (fun _ => Except.error (PyExc.llm .TimeoutError "t")) none 0)).map
      rowKey := by
  have h := C6_isolation_counts ["a.md"] ["x.md"] ["m1"] (by decide)
    (by decide) (by decide) "r" id id
    (fun _ => Except.error (PyExc.llm .TimeoutError "t")) none 0
  exact ⟨h.1, h.2.1, h.2.2.1, h.2.2.2.1 ("a.md", "x.md", "m1") (by decide)⟩

/-- C1 (confirmed): the table holds at most one row per
(run, prompt, test case, model) key at all times; a `store_result` call
whose key is already present replaces the existing row without growing the
table; and running the full product twice with the same run identifier and
unchanged prompt/test-case/model sets leaves exactly P×T×M rows for the
run, not 2×(P×T×M). -/
theorem C1_store_unique_idempotent :
    (∀ (st : StorageState) (run_id prompt_file test_case_file model_name
        system_message user_message : String)
        (response_content response_model_name : Option String)
        (status : String) (error_details : Option ErrorDetails) (now : Nat),
      KeyUnique st.db →
        KeyUnique (store_result_db st run_id prompt_file test_case_file
          model_name system_message user_message response_content
          response_model_name status error_details now) ∧
        ((run_id, prompt_file, test_case_file, model_name) ∈
            st.db.map rowKey →
          (store_result_db st run_id prompt_file test_case_file model_name
            system_message user_message response_content response_model_name
            status error_details now).length = st.db.length)) ∧
    (∀ (ps ts ms : List String) (r : String)
        (sysOf userOf : String → String)
        (o : String × String × String → Except PyExc (String × String))
        (cfg : Option String) (now : Nat),
      ps.Nodup → ts.Nodup → ms.Nodup →
        runResultOk (run_twice r ps ts none ms sysOf userOf o cfg now) =
          true ∧
        (runResultDb (run_twice r ps ts none ms sysOf userOf o cfg
          now)).length = ps.length * ts.length * ms.length ∧
        KeyUnique (runResultDb (run_twice r ps ts none ms sysOf userOf o cfg
          now)) ∧
        (∀ row ∈ runResultDb (run_twice r ps ts none ms sysOf userOf o cfg
          now), row.run_id = r)) := by
  constructor
  · intro st run_id pf tf mn sm um rc rm status ed now hku
    unfold store_result_db store_result
    by_cases hv : status ∈ validStatuses
    · rw [if_pos hv]
      constructor
      · exact store_insert_keyUnique _ _ hku
      · intro hk
        apply store_insert_length _ _ hku
        rw [rowKey_mk]
        exact hk
    · rw [if_neg hv]
      exact ⟨hku, fun _ => rfl⟩
  · intro ps ts ms r sysOf userOf o cfg now hp ht hm
    have hku0 : KeyUnique emptyStorage.db := by
      simp [KeyUnique, emptyStorage]
    have hrun0 : ∀ row ∈ emptyStorage.db, row.run_id = r := by
      intro row hrow
      simp [emptyStorage] at hrow
    obtain ⟨hku1, hset1, hrows1⟩ := run_final_facts emptyStorage r ps ts none
      ms sysOf userOf o cfg now hku0 hrun0
    have hset1' : ((run_final emptyStorage r ps ts none ms sysOf userOf o cfg
        now).db.map rowKey).toFinset =
        ((generate_experiment_combinations ps ts none ms).map
          (comboKey r)).toFinset := by
      rw [hset1]
      simp [emptyStorage]
    obtain ⟨hku2, hset2, hrows2⟩ := run_final_facts
      (run_final emptyStorage r ps ts none ms sysOf userOf o cfg now) r ps ts
      none ms sysOf userOf o cfg now hku1
      (fun row hrow => (hrows1 row hrow).1)
    have hset2' : ((run_final (run_final emptyStorage r ps ts none ms sysOf
        userOf o cfg now) r ps ts none ms sysOf userOf o cfg now).db.map
          rowKey).toFinset =
        ((generate_experiment_combinations ps ts none ms).map
          (comboKey r)).toFinset := by
      rw [hset2, hset1', Finset.union_self]
    have hcsnodup := generate_none_nodup ps ts ms hp ht hm
    have hlen := keyset_length _ _ r hku2 hset2' hcsnodup
    have hrt : run_twice r ps ts none ms sysOf userOf o cfg now =
        .ok (run_final (run_final emptyStorage r ps ts none ms sysOf userOf o
          cfg now) r ps ts none ms sysOf userOf o cfg now, r,
          run_succ_count o (generate_experiment_combinations ps ts none ms)) := by
      unfold run_twice
      rw [run_experiments_eq]
      exact run_experiments_eq _ _ _ _ _ _ _ _ _ _ _
    rw [hrt]
    simp only [runResultOk, runResultDb]
    refine ⟨trivial, ?_, hku2, ?_⟩
    · rw [hlen, generate_none_length]
    · intro row hrow
      exact (hrows2 row hrow).1

/-- C1 (witness): re-storing an existing key keeps a one-row table at one
row, and running a 1×1×1 product twice leaves exactly one row. -/
theorem C1_witness :
    KeyUnique (store_result_db
      ⟨[mkExperimentRow emptyStorage "r" "a.md" "x.md" "m1" "s" "u" none none
        "success" none 0], [], 2⟩ "r" "a.md" "x.md" "m1" "s2" "u2" none none
      "success" none 5) ∧
    (store_result_db
      ⟨[mkExperimentRow emptyStorage "r" "a.md" "x.md" "m1" "s" "u" none none
        "success" none 0], [], 2⟩ "r" "a.md" "x.md" "m1" "s2" "u2" none none
      "success" none 5).length = 1 ∧
    runResultOk (run_twice "r" ["a.md"] ["x.md"] none ["m1"] id id
      (fun _ => Except.ok ("y", "m1")) none 0) = true ∧
    (runResultDb (run_twice "r" ["a.md"] ["x.md"] none ["m1"] id id
      (fun _ => Except.ok ("y", "m1")) none 0)).length = 1 := by
  have hA := C1_store_unique_idempotent.1
    ⟨[mkExperimentRow emptyStorage "r" "a.md" "x.md" "m1" "s" "u" none none
      "success" none 0], [], 2⟩ "r" "a.md" "x.md" "m1" "s2" "u2" none none
    "success" none 5 (by unfold KeyUnique; decide)
  have hB := C1_store_unique_idempotent.2 ["a.md"] ["x.md"] ["m1"] "r" id id
    (fun _ => Except.ok ("y", "m1")) none 0 (by decide) (by decide) (by decide)
  exact ⟨hA.1, hA.2 (by decide), hB.1, hB.2.1⟩
